import Mathlib

/-!
Verification of the reactive core of the `vue-source` repository
(dependency tracking: Dep / Observer / Watcher / batching scheduler).

The development is a shallow embedding: each JavaScript function of the
core is translated into an executable Lean definition over explicit
state, and the specification claims are settled as theorems about those
definitions.

Source map (bundled file `src/unnamed/part_003` unless noted):
* `Dep` (module 30): `addSub`, `removeSub`, `depend`, `notify`.
* `Observer` / `observe` / `defineReactive` (module 22).
* `Watcher` (module 25): `get`, `beforeGet`, `addDep`, `afterGet`,
  `update`, `run`, `teardown`.
* batcher (module 67): `pushWatcher`, `flushBatcherQueue`,
  `runBatcherQueue`, `resetBatcherState`; `config._maxUpdateCount`
  (module 2).
* array interceptor: `src/unnamed/part_001`.
-/

/-- JavaScript values, restricted to what the reactive core manipulates.
`ref` is an object identity (heap address); `nan` is the NaN number. -/
inductive JSVal where
  | undef
  | null
  | nan
  | num (n : Int)
  | str (s : String)
  | bool (b : Bool)
  | ref (addr : Nat)
deriving DecidableEq, Repr

namespace JSVal

/-- JavaScript strict equality `===`.  `NaN === NaN` is `false`;
object references compare by identity. -/
def strictEq : JSVal → JSVal → Bool
  | undef, undef => true
  | null, null => true
  | nan, _ => false
  | num n, num m => n == m
  | str a, str b => a == b
  | bool a, bool b => a == b
  | ref a, ref b => a == b
  | _, _ => false

/-- `isObject` from the utilities: non-null and of type object
(only `ref` values are objects in this value model). -/
def isObject : JSVal → Bool
  | ref _ => true
  | _ => false

end JSVal

/-! ## Reactive setter (`defineReactive`, module 22)

`reactiveSetter` closes over a mutable `val` slot, an optional captured
getter/setter pair, and the property Dep.  `Slot` carries the closure
variable and, when a captured accessor pair exists, the cell that pair
reads/writes. -/

namespace ReactM

/-- The closure state of one reactive property: `hasAcc` is whether a
pre-existing getter/setter pair was captured by `defineReactive`;
`closureVal` is the closure variable `val`; `extVal` is the backing
cell of the captured accessor pair. -/
structure Slot where
  hasAcc : Bool
  closureVal : JSVal
  extVal : JSVal
deriving DecidableEq, Repr

/-- Effective current value: `getter ? getter.call(obj) : val`. -/
def Slot.current (s : Slot) : JSVal :=
  if s.hasAcc then s.extVal else s.closureVal

/-- Result of one `reactiveSetter` call: the new slot state, the value
passed to `observe` (none when the setter short-circuited), and how
many times `dep.notify()` fired. -/
structure SetterResult where
  slot : Slot
  observed : Option JSVal
  notifies : Nat
deriving DecidableEq, Repr

/-- `reactiveSetter` (module 22): reads the effective current value,
returns untouched when `newVal === value`, else stores through the
captured setter or the closure variable, re-observes the new value
(`childOb = observe(newVal)`) and calls `dep.notify()`. -/
def reactiveSetter (s : Slot) (newVal : JSVal) : SetterResult :=
  let value := s.current
  if JSVal.strictEq newVal value then
    ⟨s, none, 0⟩
  else
    let s1 := if s.hasAcc then { s with extVal := newVal }
              else { s with closureVal := newVal }
    ⟨s1, some newVal, 1⟩

end ReactM

/-! ## Array mutation interceptor (`src/unnamed/part_001`)

The seven wrapped methods call the native operation, compute the
inserted arguments (`args` for push/unshift, `args.slice(2)` for
splice, nothing otherwise), observe the inserted elements and call
`ob.dep.notify()` once. -/

namespace ArrM

/-- The seven intercepted array methods. -/
inductive Method where
  | push | pop | shift | unshift | splice | sort | reverse
deriving DecidableEq, Repr

/-- A native method's return value: `push`/`unshift` return the new
length, `pop`/`shift` return the removed element or undefined,
`splice` returns the removed slice, `sort`/`reverse` return the array
itself (after mutation). -/
inductive NativeResult where
  | len (n : Nat)
  | elem (e : Option Int)
  | arr (l : List Int)
deriving DecidableEq, Repr

/-- ECMA `splice` start-index normalisation: negative indices count
from the end, clamped into `[0, len]`. -/
def spliceStart (s : Int) (len : Nat) : Nat :=
  if s < 0 then ((len : Int) + s).toNat else min s.toNat len

/-- Stable insertion sort with a boolean "not after" relation, modelling
the stable native `Array.prototype.sort`. -/
def insertSorted (le : Int → Int → Bool) (x : Int) : List Int → List Int
  | [] => [x]
  | y :: ys => if le y x then y :: insertSorted le x ys else x :: y :: ys

/-- Default JS sort order: elements converted to strings and compared
lexicographically. -/
def jsDefaultLe (a b : Int) : Bool :=
  decide (toString a ≤ toString b)

/-- Native `sort` with the default comparator (string comparison),
stable. -/
def jsSort (l : List Int) : List Int :=
  l.foldl (fun acc x => insertSorted jsDefaultLe x acc) []

/-- A native mutating method: returns the mutated array and the
method's return value. `args` is the raw argument list of the call. -/
def native (m : Method) (l : List Int) (args : List Int) :
    List Int × NativeResult :=
  match m with
  | .push => (l ++ args, .len (l.length + args.length))
  | .pop =>
      match l.getLast? with
      | none => (l, .elem none)
      | some x => (l.dropLast, .elem (some x))
  | .shift =>
      match l with
      | [] => (l, .elem none)
      | x :: xs => (xs, .elem (some x))
  | .unshift => (args ++ l, .len (args.length + l.length))
  | .splice =>
      match args with
      | [] => (l, .arr [])
      | [s] =>
          let st := spliceStart s l.length
          (l.take st, .arr (l.drop st))
      | s :: d :: items =>
          let st := spliceStart s l.length
          let dc := min (max d 0).toNat (l.length - st)
          (l.take st ++ items ++ l.drop (st + dc),
           .arr ((l.drop st).take dc))
  | .sort => let r := jsSort l; (r, .arr r)
  | .reverse => let r := l.reverse; (r, .arr r)

/-- Outcome of one intercepted call: the mutated array, the value the
wrapper returns, the elements passed to `ob.observeArray` and the
number of `ob.dep.notify()` calls. -/
structure MutResult where
  arr : List Int
  result : NativeResult
  observed : List Int
  notifies : Nat
deriving DecidableEq, Repr

/-- The `mutator` wrapper from `src/unnamed/part_001`: call the cached
native method, switch on the method name to find the inserted
arguments (`args` for push/unshift, `args.slice(2)` for splice,
undefined otherwise), observe them when present and notify the
Observer Dep. -/
def mutator (m : Method) (l : List Int) (args : List Int) : MutResult :=
  let (arr, result) := native m l args
  let inserted : Option (List Int) :=
    match m with
    | .push => some args
    | .unshift => some args
    | .splice => some (args.drop 2)
    | _ => none
  let observed := match inserted with
    | some ins => ins
    | none => []
  ⟨arr, result, observed, 1⟩

/-- The insertion table as the specification states it: all arguments
for push and unshift, the arguments after the first two for splice,
none for pop, shift, sort, reverse. -/
def insertedSpec (m : Method) (args : List Int) : List Int :=
  match m with
  | .push => args
  | .unshift => args
  | .splice => args.drop 2
  | _ => []

end ArrM

/-! ## Dep (module 30)

`subs` is the live subscriber array (watcher ids).  `notify` copies it
with `toArray` and calls `update()` on each element of the copy; an
update may arbitrarily rewrite the live list. -/

namespace DepM

/-- Dep state during a `notify` call: the live subscriber list and the
log of `update()` calls already delivered. -/
structure DepSt where
  subs : List Nat
  callLog : List Nat
deriving DecidableEq, Repr

/-- Deliver `update()` to each watcher of the snapshot in order; `f`
is the (arbitrary) effect an update has on the live subscriber list,
e.g. a teardown removing entries. -/
def notifyLoop (f : Nat → List Nat → List Nat) :
    List Nat → DepSt → DepSt
  | [], s => s
  | w :: ws, s =>
      notifyLoop f ws ⟨f w s.subs, s.callLog ++ [w]⟩

/-- `Dep.prototype.notify`: `var subs = toArray(this.subs)` then call
`subs[i].update()` for each element of the copy. -/
def notify (f : Nat → List Nat → List Nat) (s : DepSt) : DepSt :=
  notifyLoop f s.subs s

end DepM

/-! ## `observe` (module 22) -/

namespace ObsM

/-- The fields of a JS object that `observe` inspects: array/plain
classification, extensibility, the `_isVue` exclusion marker, and the
hidden `__ob__` back-reference (an observer id when present). -/
structure JObj where
  isArr : Bool
  isPlain : Bool
  extensible : Bool
  isVue : Bool
  ob : Option Nat
deriving DecidableEq, Repr

/-- A value as `observe` sees it: a primitive (including undefined),
null, or an object. -/
inductive JV where
  | prim
  | null
  | obj (o : JObj)
deriving DecidableEq, Repr

/-- Result of one `observe(value, vm)` call: the value afterwards
(with `__ob__` possibly attached), the returned observer id
(`none` = undefined), whether a new `Observer` was constructed — which
is exactly when the value was walked / its elements observed — and the
owner registered by `ob.addVm(vm)` if any. -/
structure ObserveResult where
  value : JV
  ob : Option Nat
  constructed : Bool
  vmRegistered : Option Nat
deriving DecidableEq, Repr

/-- `observe(value, vm)` (module 22): return undefined for non-objects
and null; reuse an existing `__ob__`; otherwise construct an
`Observer` (attaching `__ob__` and walking) only when conversion is
enabled, the value is an array or plain object, extensible, and not a
Vue instance; finally register `vm` when both an observer and an owner
exist. `nextId` is the id a newly constructed Observer Dep would get. -/
def observe (shouldConvert : Bool) (nextId : Nat) (v : JV)
    (vm : Option Nat) : ObserveResult :=
  match v with
  | .prim => ⟨v, none, false, none⟩
  | .null => ⟨v, none, false, none⟩
  | .obj o =>
      match o.ob with
      | some id =>
          ⟨v, some id, false, if vm.isSome then vm else none⟩
      | none =>
          if shouldConvert && (o.isArr || o.isPlain) &&
              o.extensible && !o.isVue then
            ⟨.obj { o with ob := some nextId }, some nextId, true,
             if vm.isSome then vm else none⟩
          else
            ⟨v, none, false, none⟩

end ObsM

/-! ## Watcher dependency recording and lifecycle (modules 25 and 30)

`RW` carries one watcher's fields; `Store` maps a Dep id to that Dep's
live subscriber array (`subs`).  `Dep.target` is the global recording
marker.  The getter of a watcher is modelled by the list of Dep ids it
reads (`getterReads`, each read calls `dep.depend()` which calls
`Dep.target.addDep(dep)`) and by its result (`getterResult`, `none`
when the getter throws). -/

namespace RecM

/-- One watcher (module 25). `depIds`/`deps` are the current dependency
set, `newDepIds`/`newDeps` the scratch set collected during the pass;
`cbLog` records `(newValue, oldValue)` callback invocations;
`cbCleared` is whether teardown nulled `vm`/`cb`. -/
structure RW where
  wid : Nat
  active : Bool
  deep : Bool
  shallow : Bool
  queued : Bool
  value : JSVal
  depIds : List Nat
  deps : List Nat
  newDepIds : List Nat
  newDeps : List Nat
  getterReads : List Nat
  getterResult : Option JSVal
  cbLog : List (JSVal × JSVal)
  cbCleared : Bool

/-- Dep-id-indexed subscriber lists (`dep.subs` for every Dep). -/
abbrev Store := Nat → List Nat

/-- `Array.prototype.$remove` via the utilities' `indexOf`, which scans
from the end of the array: removes the last occurrence. -/
def arrRemove (l : List Nat) (x : Nat) : List Nat :=
  (l.reverse.erase x).reverse

/-- `Dep.prototype.addSub`: push the watcher id onto the Dep's list. -/
def addSub (st : Store) (d w : Nat) : Store :=
  fun x => if x = d then st x ++ [w] else st x

/-- `Dep.prototype.removeSub`: `this.subs.$remove(sub)`. -/
def removeSub (st : Store) (d w : Nat) : Store :=
  fun x => if x = d then arrRemove (st x) w else st x

/-- `Watcher.prototype.addDep` (module 25): skip a Dep id already in
the scratch set; else record it in both scratch buffers, and subscribe
only when it is not already in the current set. -/
def addDep (w : RW) (st : Store) (d : Nat) : RW × Store :=
  if d ∈ w.newDepIds then (w, st)
  else
    let w1 := { w with newDepIds := w.newDepIds ++ [d],
                       newDeps := w.newDeps ++ [d] }
    if d ∈ w.depIds then (w1, st) else (w1, addSub st d w.wid)

/-- The sequence of `dep.depend()` calls a getter evaluation makes:
each read Dep is handed to `addDep` on the recording watcher. -/
def collect (w : RW) (st : Store) (reads : List Nat) : RW × Store :=
  reads.foldl (fun p d => addDep p.1 p.2 d) (w, st)

/-- One removal sweep over a list of Dep ids: remove `wid` as
subscriber of every listed Dep whose id is not in `keep` (`afterGet`
keeps the ids of the scratch set; `teardown` keeps nothing). -/
def rmPass (keep : List Nat) (wid : Nat) (L : List Nat) (st : Store) :
    Store :=
  L.foldl (fun acc d => if d ∈ keep then acc else removeSub acc d wid) st

/-- The reconciliation part of `Watcher.prototype.afterGet`: drop
subscriptions on Deps of the previous set absent from the scratch set
(iterating `deps` from the end), swap the double buffers, clear the
scratch buffers. -/
def reconcile (w : RW) (st : Store) : RW × Store :=
  let st1 := rmPass w.newDepIds w.wid w.deps.reverse st
  ({ w with depIds := w.newDepIds, deps := w.newDeps,
            newDepIds := [], newDeps := [] }, st1)

/-- Per-watcher view of the evaluation state: the watcher, all Dep
subscriber lists, the global `Dep.target` marker (the recording
watcher's id) and the owning vm's bookkeeping. -/
structure VmRec where
  isBeingDestroyed : Bool
  vForRemoving : Bool
  watchers : List Nat

structure St where
  w : RW
  store : Store
  target : Option Nat
  vm : VmRec

/-- `Watcher.prototype.get` (module 25): `beforeGet` sets
`Dep.target = this`; the getter runs inside try/catch — its reactive
reads call `dep.depend()`, and when it throws, the local `value`
variable keeps its declared value `undefined`; the watchers modelled
have no `deep`/`preProcess`/`filters`/`postProcess` configured;
`afterGet` clears `Dep.target` and reconciles the dependency sets.
Returns the updated state and the computed value. -/
def get (s : St) : St × JSVal :=
  let s0 := { s with target := some s.w.wid }
  let p := collect s0.w s0.store s0.w.getterReads
  let value := match p.1.getterResult with
    | some v => v
    | none => JSVal.undef
  let q := reconcile p.1 p.2
  ({ s0 with w := q.1, store := q.2, target := none }, value)

/-- `Watcher.prototype.run` (module 25), production branch: when
active, re-evaluate; when the new value differs (`!==`) or is an
object or the watcher is deep (and the trigger was not shallow), store
it and invoke the callback with `(value, oldValue)`; finally clear the
`queued`/`shallow` flags. -/
def run (s : St) : St :=
  if s.w.active then
    let pr := get s
    let s1 := pr.1
    let value := pr.2
    let w := s1.w
    let w2 :=
      if !(JSVal.strictEq value w.value) ||
          ((value.isObject || w.deep) && !w.shallow) then
        { w with value := value, cbLog := w.cbLog ++ [(value, w.value)] }
      else w
    { s1 with w := { w2 with queued := false, shallow := false } }
  else s

/-- `Watcher.prototype.teardown` (module 25): when active, remove the
watcher from the vm's list (unless the vm is being destroyed), call
`removeSub` on every held Dep (iterating from the end, keeping
nothing), mark inactive and null out `vm`/`cb`/`value`. -/
def teardown (s : St) : St :=
  if s.w.active then
    let vm :=
      if !s.vm.isBeingDestroyed && !s.vm.vForRemoving then
        { s.vm with watchers := arrRemove s.vm.watchers s.w.wid }
      else s.vm
    let st := rmPass [] s.w.wid s.w.deps.reverse s.store
    { s with vm := vm, store := st,
             w := { s.w with active := false, value := JSVal.null,
                             cbCleared := true } }
  else s

/-- `Dep.prototype.depend` (module 30): `Dep.target.addDep(this)` —
an unconditional dereference of the global marker, a TypeError
(modelled as `Except.error`) when no watcher is recording. -/
def dependExc (target : Option RW) (st : Store) (d : Nat) :
    Except Unit (RW × Store) :=
  match target with
  | none => .error ()
  | some w => .ok (addDep w st d)

/-- A sequence of `depend()` calls threading the recording watcher. -/
def dependSeq (target : Option RW) (st : Store) :
    List Nat → Except Unit (Option RW × Store)
  | [] => .ok (target, st)
  | d :: ds =>
      match dependExc target st d with
      | .error e => .error e
      | .ok p => dependSeq (some p.1) p.2 ds

/-- The dependency-registration part of `reactiveGetter` (module 22):
only when `Dep.target` is set, call `dep.depend()`, then the child
Observer Dep's `depend()` when present, then each observed array
element's. -/
def reactiveGetterDeps (target : Option RW) (st : Store) (propDep : Nat)
    (childDep : Option Nat) (elemDeps : List Nat) :
    Except Unit (Option RW × Store) :=
  match target with
  | none => .ok (none, st)
  | some _ => dependSeq target st (propDep :: (childDep.toList ++ elemDeps))

end RecM

/-- Invariant of the dependency-collection phase: after the reads in
`done` have been handed to `addDep`, the watcher differs from its
pre-pass state `w0` only in the scratch buffers, the scratch buffers
mirror each other and hold exactly the set of ids in `done` without
duplicates, and the watcher is subscribed (at most once) exactly to
the union of its previous set and `done`. -/
def RecM.MidInv (w0 : RW) (done : List Nat) (w : RW) (st : Store) : Prop :=
  w = { w0 with newDepIds := w.newDepIds, newDeps := w.newDeps } ∧
  w.newDeps = w.newDepIds ∧
  w.newDepIds.Nodup ∧
  (∀ d, d ∈ w.newDepIds ↔ d ∈ done) ∧
  (∀ d, w0.wid ∈ st d ↔ (d ∈ w0.depIds ∨ d ∈ done)) ∧
  (∀ d, (st d).count w0.wid ≤ 1)

/-- Concrete watcher for evaluating the reconciliation theorem: it was
subscribed to Deps 1 and 2 and its getter now reads Deps 2 and 3. -/
def RecM.c1w : RecM.RW :=
  { wid := 7, active := true, deep := false, shallow := false,
    queued := false, value := .num 0, depIds := [1, 2], deps := [1, 2],
    newDepIds := [], newDeps := [], getterReads := [2, 3],
    getterResult := some (.num 5), cbLog := [], cbCleared := false }

/-- Subscriber lists matching `c1w`: Deps 1 and 2 hold watcher 7. -/
def RecM.c1store : RecM.Store :=
  fun d => if d = 1 ∨ d = 2 then [7] else []

def RecM.c1s : RecM.St :=
  { w := RecM.c1w, store := RecM.c1store, target := none,
    vm := ⟨false, false, [7]⟩ }

/-- Concrete watcher whose getter throws: previous value `1`, getter
reads Dep 1 and then raises. -/
def RecM.c5s : RecM.St :=
  { w := { wid := 9, active := true, deep := false, shallow := false,
           queued := false, value := .num 1, depIds := [], deps := [],
           newDepIds := [], newDeps := [], getterReads := [1],
           getterResult := none, cbLog := [], cbCleared := false },
    store := fun _ => [], target := none, vm := ⟨false, false, [9]⟩ }

/-! ## Batching scheduler (module 67, with modules 25 and 22)

A closed-loop model of the async notification path: reactive cells
(Int-valued) with per-cell property Deps, watchers whose getters read
one cell and whose callbacks may write cells reactively, and the
batcher module state.  Watchers here take the scheduler path of
`update` (non-`sync`, `config.async` true); a lazy watcher is only
marked dirty.  The dependency subscriber lists are static in this
model because each watcher re-reads the same cell on every run.  The
`runBatcherQueue`/`flushBatcherQueue` loops have no structural bound
in the source, so the model gives them fuel; exhausting it sets the
`fuelOut` marker. -/

namespace SchedM

/-- A reactive write performed by a watcher's callback. -/
inductive CbWrite where
  | setTo (cell : Nat) (v : Int)
  | incr (cell : Nat)
deriving DecidableEq, Repr

/-- Scheduler-relevant state of one watcher (module 25). -/
structure SW where
  user : Bool
  lazy : Bool
  deep : Bool
  active : Bool
  queued : Bool
  shallow : Bool
  dirty : Bool
  value : Int
  readCell : Nat
  cbWrites : List CbWrite
deriving DecidableEq, Repr

def swDefault : SW :=
  { user := false, lazy := false, deep := false, active := false,
    queued := false, shallow := false, dirty := false, value := 0,
    readCell := 0, cbWrites := [] }

/-- Whole-system state: the cells, each cell's Dep subscriber list,
the watcher table, the batcher state (`queue`, `userQueue`, the `has`
map modelled as the set of ids currently mapped to a queue index,
`waiting`), the diagnostic state used by the development branch
(`circular`, `aborted`), the callback and run logs, and the model's
fuel-exhaustion marker. -/
structure Core where
  store : List Int
  subsC : List (List Nat)
  ws : List SW
  queue : List Nat
  userQueue : List Nat
  hasSet : List Nat
  waiting : Bool
  circular : List (Nat × Nat)
  aborted : Bool
  cbLog : List (Nat × Int × Int)
  runLog : List Nat
  fuelOut : Bool
deriving DecidableEq, Repr

def getW (s : Core) (i : Nat) : SW := s.ws.getD i swDefault

def setW (s : Core) (i : Nat) (w : SW) : Core :=
  { s with ws := s.ws.set i w }

/-- `pushWatcher` (module 67): a no-op when the watcher's id is
already in the `has` map; otherwise record the id, append the watcher
to the user or primary queue, and mark a flush as pending. -/
def pushWatcher (i : Nat) (s : Core) : Core :=
  if i ∈ s.hasSet then s
  else
    let s1 := { s with hasSet := s.hasSet ++ [i] }
    let s2 := if (getW s1 i).user
      then { s1 with userQueue := s1.userQueue ++ [i] }
      else { s1 with queue := s1.queue ++ [i] }
    if s2.waiting then s2 else { s2 with waiting := true }

/-- `Watcher.prototype.update` (module 25) on the scheduler path: mark
a lazy watcher dirty; otherwise coalesce the shallow flag (shallow
only if every coalesced trigger was shallow; `Dep.notify` passes no
argument, i.e. a falsy shallow), set `queued`, and push. -/
def updateW (i : Nat) (shallow : Bool) (s : Core) : Core :=
  let w := getW s i
  if w.lazy then setW s i { w with dirty := true }
  else
    let sh := if w.queued then (if shallow then w.shallow else false)
              else shallow
    pushWatcher i (setW s i { w with shallow := sh, queued := true })

/-- `Dep.prototype.notify` for a cell's property Dep: iterate a
snapshot of the subscriber list, calling `update()` on each. -/
def notifyCell (c : Nat) (s : Core) : Core :=
  (s.subsC.getD c []).foldl (fun acc i => updateW i false acc) s

/-- `reactiveSetter` on an Int cell: skip when the new value equals
the current one, else store it and notify the property Dep. -/
def setCell (c : Nat) (v : Int) (s : Core) : Core :=
  if v = s.store.getD c 0 then s
  else notifyCell c { s with store := s.store.set c v }

/-- One reactive write from a watcher callback. -/
def doWrite (s : Core) (wr : CbWrite) : Core :=
  match wr with
  | .setTo c v => setCell c v s
  | .incr c => setCell c (s.store.getD c 0 + 1) s

/-- `Watcher.prototype.run` (module 25, production branch) for a
watcher whose getter reads one cell: when active, evaluate; when the
value differs (`!==`; Int values are not objects) or the watcher is
deep and the trigger was not shallow, store the new value, invoke the
callback (logged, then its reactive writes performed), and finally
clear the `queued`/`shallow` flags. -/
def runW (i : Nat) (s : Core) : Core :=
  let w := getW s i
  if w.active then
    let value := s.store.getD w.readCell 0
    let s1 :=
      if value != w.value || (w.deep && !w.shallow) then
        let sa := setW s i { w with value := value }
        let sb := { sa with cbLog := sa.cbLog ++ [(i, value, w.value)] }
        w.cbWrites.foldl doWrite sb
      else s
    let w1 := getW s1 i
    setW s1 i { w1 with queued := false, shallow := false }
  else s

/-- `config._maxUpdateCount` (module 2). -/
def maxUpdateCount : Nat := 100

/-- Queue selection: the user queue or the primary queue. -/
def qsel (isUser : Bool) (s : Core) : List Nat :=
  if isUser then s.userQueue else s.queue

/-- `runBatcherQueue` (module 67) as shipped: the diagnostic block is
inside `if (false)` and never runs.  The loop re-reads the live queue
length each iteration, nulls the watcher's `has` entry just before
running it, and clears the queue when the loop exits. -/
def runQ : Nat → Bool → Nat → Core → Core
  | 0, _, _, s => { s with fuelOut := true }
  | fuel + 1, isUser, i, s =>
      let q := qsel isUser s
      if h : i < q.length then
        let id := q.get ⟨i, h⟩
        let s1 := { s with hasSet := s.hasSet.erase id,
                           runLog := s.runLog ++ [id] }
        let s2 := runW id s1
        runQ fuel isUser (i + 1) s2
      else
        if isUser then { s with userQueue := [] }
        else { s with queue := [] }

/-- `runBatcherQueue` with the diagnostic branch enabled as written in
the source text: after each run, bump the watcher's `circular` count;
once it exceeds `config._maxUpdateCount`, warn (`aborted`) and break
out of the loop — the queue is cleared after the loop either way. -/
def runQDev : Nat → Bool → Nat → Core → Core
  | 0, _, _, s => { s with fuelOut := true }
  | fuel + 1, isUser, i, s =>
      let q := qsel isUser s
      if h : i < q.length then
        let id := q.get ⟨i, h⟩
        let s1 := { s with hasSet := s.hasSet.erase id,
                           runLog := s.runLog ++ [id] }
        let s2 := runW id s1
        let cnt := (s2.circular.lookup id).getD 0 + 1
        let s3 := { s2 with circular :=
          (id, cnt) :: s2.circular.filter (fun p => p.1 ≠ id) }
        if cnt > maxUpdateCount then
          let s4 := { s3 with aborted := true }
          if isUser then { s4 with userQueue := [] }
          else { s4 with queue := [] }
        else runQDev fuel isUser (i + 1) s3
      else
        if isUser then { s with userQueue := [] }
        else { s with queue := [] }

/-- `resetBatcherState` (module 67). -/
def resetBatcher (s : Core) : Core :=
  { s with queue := [], userQueue := [], hasSet := [],
           circular := [], waiting := false }

/-- `flushBatcherQueue` (module 67): run the primary queue, then the
user queue; as long as the primary queue is non-empty afterwards,
flush again; finally reset the batcher state. -/
def flush : Nat → Core → Core
  | 0, s => { s with fuelOut := true }
  | fuel + 1, s =>
      let s1 := runQ fuel false 0 s
      let s2 := runQ fuel true 0 s1
      if s2.queue ≠ [] then flush fuel s2
      else resetBatcher s2

/-- `flushBatcherQueue` over the diagnostic `runBatcherQueue`. -/
def flushDev : Nat → Core → Core
  | 0, s => { s with fuelOut := true }
  | fuel + 1, s =>
      let s1 := runQDev fuel false 0 s
      let s2 := runQDev fuel true 0 s1
      if s2.queue ≠ [] then flushDev fuel s2
      else resetBatcher s2

/-- A plain primary-queue watcher over cell 0 with no callback
writes. -/
def mkW2 (v0 : Int) (q : Bool) : SW :=
  { user := false, lazy := false, deep := false, active := true,
    queued := q, shallow := false, dirty := false, value := v0,
    readCell := 0, cbWrites := [] }

/-- The C2 system family: one cell holding `cur`, one watcher (last
committed value `v0`), queued or not. -/
def c2state (v0 cur : Int) (q : Bool) : Core :=
  { store := [cur], subsC := [[0]], ws := [mkW2 v0 q],
    queue := if q then [0] else [], userQueue := [],
    hasSet := if q then [0] else [], waiting := q,
    circular := [], aborted := false, cbLog := [], runLog := [],
    fuelOut := false }

/-- Idle C2 start state. -/
def sysC2 (v0 : Int) : Core := c2state v0 v0 false

/-- Fold the reactive assignments of one tick over the system. -/
def applyTriggers (vs : List Int) (s : Core) : Core :=
  vs.foldl (fun acc v => setCell 0 v acc) s

/-- Two-watcher scenario: watcher 0 (primary) and watcher 1 (user)
both read cell 0; watcher 1's callback reactively writes cell 1, on
which watcher 0 also depends. -/
def sysAB : Core :=
  { store := [0, 0], subsC := [[0, 1], [0]],
    ws := [ { user := false, lazy := false, deep := false,
              active := true, queued := false, shallow := false,
              dirty := false, value := 0, readCell := 0, cbWrites := [] },
            { user := true, lazy := false, deep := false,
              active := true, queued := false, shallow := false,
              dirty := false, value := 0, readCell := 0,
              cbWrites := [.setTo 1 5] } ],
    queue := [], userQueue := [], hasSet := [], waiting := false,
    circular := [], aborted := false, cbLog := [], runLog := [],
    fuelOut := false }

/-- Runaway scenario for C4: the single watcher's callback
unconditionally increments the very cell it watches. -/
def sysC4 : Core :=
  { store := [0], subsC := [[0]],
    ws := [ { user := false, lazy := false, deep := false,
              active := true, queued := false, shallow := false,
              dirty := false, value := 0, readCell := 0,
              cbWrites := [.incr 0] } ],
    queue := [], userQueue := [], hasSet := [], waiting := false,
    circular := [], aborted := false, cbLog := [], runLog := [],
    fuelOut := false }

/-- The runaway system right after the external trigger. -/
def c4start : Core := setCell 0 1 sysC4

/-- Closed form of the runaway system when the flush loop is about to
process queue index `k`, for `k ≥ 1` (the state after `k` runs). -/
def c4state (k : Nat) : Core :=
  { store := [(k : Int) + 1], subsC := [[0]],
    ws := [ { user := false, lazy := false, deep := false,
              active := true, queued := false, shallow := false,
              dirty := false, value := (k : Int), readCell := 0,
              cbWrites := [.incr 0] } ],
    queue := List.replicate (k + 1) 0, userQueue := [],
    hasSet := [0], waiting := true, circular := [], aborted := false,
    cbLog := (List.range k).map (fun j => (0, (j : Int) + 1, (j : Int))),
    runLog := List.replicate k 0, fuelOut := false }

end SchedM

/-! Sanity examples (concrete evaluations of the definitions). -/

example : (ReactM.reactiveSetter ⟨false, .num 1, .undef⟩ (.num 1)).notifies = 0 := by decide
example : (ReactM.reactiveSetter ⟨false, .num 1, .undef⟩ (.num 2)).notifies = 1 := by decide
example : (ReactM.reactiveSetter ⟨false, .nan, .undef⟩ .nan).notifies = 1 := by decide
example : (ArrM.mutator .push [1, 2] [3]).arr = [1, 2, 3] := by decide
example : (ArrM.mutator .splice [1, 2, 3] [1, 1, 9]).result = .arr [2] := by decide
example : (ArrM.mutator .splice [1, 2, 3] [1, 1, 9]).arr = [1, 9, 3] := by decide
example : (ArrM.mutator .pop [1, 2] []).observed = [] := by decide
example :
    (DepM.notify (fun w subs => subs.erase w) ⟨[4, 5], []⟩).callLog = [4, 5] := by decide
example :
    (ObsM.observe true 7 (.obj ⟨false, true, true, false, none⟩) none).ob = some 7 := by decide
example :
    (ObsM.observe true 7 (.obj ⟨false, true, false, false, none⟩) none).ob = none := by decide

namespace RecM

lemma count_arrRemove_self (l : List Nat) (x : Nat) :
    (arrRemove l x).count x = l.count x - 1 := by
  unfold arrRemove
  rw [List.count_reverse, List.count_erase_self, List.count_reverse]

lemma not_mem_arrRemove_self (l : List Nat) (x : Nat) (h : l.count x ≤ 1) :
    x ∉ arrRemove l x := by
  rw [← List.count_eq_zero, count_arrRemove_self]
  omega

lemma count_arrRemove_le (l : List Nat) (x y : Nat) :
    (arrRemove l x).count y ≤ l.count y := by
  unfold arrRemove
  rw [List.count_reverse, List.count_erase, List.count_reverse]
  split <;> omega

lemma midInv_init (w0 : RW) (st : Store)
    (h1 : w0.newDepIds = []) (h2 : w0.newDeps = [])
    (h5 : ∀ d, w0.wid ∈ st d ↔ d ∈ w0.depIds)
    (h6 : ∀ d, (st d).count w0.wid ≤ 1) :
    MidInv w0 [] w0 st := by
  refine ⟨rfl, h2.trans h1.symm, ?_, ?_, ?_, h6⟩
  · rw [h1]; exact List.nodup_nil
  · intro d; rw [h1]
  · intro d; rw [h5 d]; simp

lemma midInv_addDep (w0 : RW) (done : List Nat) (w : RW) (st : Store)
    (r : Nat) (h : MidInv w0 done w st) :
    MidInv w0 (done ++ [r]) (addDep w st r).1 (addDep w st r).2 := by
  obtain ⟨hEq, hNd, hNodup, hMemN, hMemS, hCnt⟩ := h
  have hWid : w.wid = w0.wid := by rw [hEq]
  have hDepIds : w.depIds = w0.depIds := by rw [hEq]
  by_cases hr : r ∈ w.newDepIds
  · have hre : addDep w st r = (w, st) := by simp [addDep, hr]
    rw [hre]
    have hrdone : r ∈ done := (hMemN r).mp hr
    refine ⟨hEq, hNd, hNodup, ?_, ?_, hCnt⟩
    · intro d
      rw [hMemN d, List.mem_append]
      constructor
      · exact Or.inl
      · rintro (hd | hd)
        · exact hd
        · rw [List.mem_singleton] at hd; rw [hd]; exact hrdone
    · intro d
      rw [hMemS d, List.mem_append]
      constructor
      · rintro (hd | hd)
        · exact Or.inl hd
        · exact Or.inr (Or.inl hd)
      · rintro (hd | hd | hd)
        · exact Or.inl hd
        · exact Or.inr hd
        · rw [List.mem_singleton] at hd; rw [hd]; exact Or.inr hrdone
  · have hmemNew : ∀ d, d ∈ w.newDepIds ++ [r] ↔ d ∈ done ++ [r] := by
      intro d
      rw [List.mem_append, List.mem_append, hMemN d]
    have hNodupNew : (w.newDepIds ++ [r]).Nodup := by
      rw [List.nodup_append]
      exact ⟨hNodup, List.nodup_singleton r,
        by intro a ha hb; rw [List.mem_singleton] at hb; subst hb; exact hr ha⟩
    by_cases hri : r ∈ w.depIds
    · have hre : addDep w st r =
          ({ w with newDepIds := w.newDepIds ++ [r],
                    newDeps := w.newDeps ++ [r] }, st) := by
        simp [addDep, hr, hri]
      rw [hre]
      have hrdep : r ∈ w0.depIds := hDepIds ▸ hri
      refine ⟨by rw [hEq], by rw [hNd], hNodupNew, hmemNew, ?_, hCnt⟩
      intro d
      rw [hMemS d, List.mem_append]
      constructor
      · rintro (hd | hd)
        · exact Or.inl hd
        · exact Or.inr (Or.inl hd)
      · rintro (hd | hd | hd)
        · exact Or.inl hd
        · exact Or.inr hd
        · rw [List.mem_singleton] at hd; rw [hd]; exact Or.inl hrdep
    · have hre : addDep w st r =
          ({ w with newDepIds := w.newDepIds ++ [r],
                    newDeps := w.newDeps ++ [r] }, addSub st r w.wid) := by
        simp [addDep, hr, hri]
      rw [hre]
      have hrdep : r ∉ w0.depIds := fun hc => hri (hDepIds ▸ hc)
      have hrdone : r ∉ done := fun hc => hr ((hMemN r).mpr hc)
      have hnotin : w0.wid ∉ st r := by
        rw [hMemS r]
        rintro (hc | hc)
        · exact hrdep hc
        · exact hrdone hc
      refine ⟨by rw [hEq], by rw [hNd], hNodupNew, hmemNew, ?_, ?_⟩
      · intro d
        show w0.wid ∈ (if d = r then st d ++ [w.wid] else st d) ↔ _
        by_cases hd : d = r
        · rw [hd, if_pos rfl]
          simp [hWid]
        · rw [if_neg hd, hMemS d]
          simp [hd]
      · intro d
        show ((if d = r then st d ++ [w.wid] else st d)).count w0.wid ≤ 1
        by_cases hd : d = r
        · rw [hd, if_pos rfl, List.count_append,
              List.count_eq_zero.mpr (hd ▸ hnotin), hWid]
          simp
        · rw [if_neg hd]; exact hCnt d

lemma midInv_collect (w0 : RW) (reads : List Nat) :
    ∀ (done : List Nat) (w : RW) (st : Store), MidInv w0 done w st →
    MidInv w0 (done ++ reads) (collect w st reads).1 (collect w st reads).2 := by
  induction reads with
  | nil =>
      intro done w st h
      simpa [collect] using h
  | cons r rest ih =>
      intro done w st h
      have h1 := midInv_addDep w0 done w st r h
      have h2 := ih (done ++ [r]) _ _ h1
      have hc : collect w st (r :: rest) =
          collect (addDep w st r).1 (addDep w st r).2 rest := by
        simp [collect]
      rw [hc]
      simpa [List.append_assoc] using h2

lemma rmPass_eval (keep : List Nat) (wid : Nat) (L : List Nat) :
    ∀ (st : Store) (x : Nat), L.Nodup →
    rmPass keep wid L st x =
      if x ∈ L ∧ x ∉ keep then arrRemove (st x) wid else st x := by
  induction L with
  | nil =>
      intro st x _
      simp [rmPass]
  | cons d rest ih =>
      intro st x h
      rw [List.nodup_cons] at h
      obtain ⟨hd, hrest⟩ := h
      have step : rmPass keep wid (d :: rest) st =
          rmPass keep wid rest (if d ∈ keep then st else removeSub st d wid) := by
        simp [rmPass]
      rw [step, ih _ x hrest]
      by_cases hxd : x = d
      · rw [hxd]
        rw [if_neg (by intro hc; exact hd hc.1)]
        by_cases hk : d ∈ keep
        · rw [if_pos hk, if_neg (by intro hc; exact hc.2 hk)]
        · rw [if_neg hk]
          have hrs : removeSub st d wid d = arrRemove (st d) wid := by
            show (if d = d then arrRemove (st d) wid else st d) = _
            rw [if_pos rfl]
          rw [hrs, if_pos ⟨List.mem_cons_self d rest, hk⟩]
      · have hst : (if d ∈ keep then st else removeSub st d wid) x = st x := by
          by_cases hk : d ∈ keep
          · rw [if_pos hk]
          · rw [if_neg hk]
            show (if x = d then arrRemove (st x) wid else st x) = st x
            rw [if_neg hxd]
        rw [hst]
        by_cases hxr : x ∈ rest ∧ x ∉ keep
        · rw [if_pos hxr, if_pos ⟨List.mem_cons.mpr (Or.inr hxr.1), hxr.2⟩]
        · rw [if_neg hxr, if_neg]
          intro hc
          rcases List.mem_cons.mp hc.1 with hc1 | hc1
          · exact hxd hc1
          · exact hxr ⟨hc1, hc.2⟩

lemma notifyLoop_callLog (f : Nat → List Nat → List Nat) :
    ∀ (ws : List Nat) (s : DepM.DepSt),
    (DepM.notifyLoop f ws s).callLog = s.callLog ++ ws := by
  intro ws
  induction ws with
  | nil => intro s; simp [DepM.notifyLoop]
  | cons w rest ih =>
      intro s
      rw [DepM.notifyLoop, ih]
      simp

lemma notify_callLog (f : Nat → List Nat → List Nat) (s : DepM.DepSt) :
    (DepM.notify f s).callLog = s.callLog ++ s.subs := by
  rw [DepM.notify, notifyLoop_callLog]

end RecM

/-- The full effect of one `get` pass on the dependency sets and the
subscriber lists, given the between-passes invariant. -/
lemma RecM.get_reconciliation (s : RecM.St)
    (h1 : s.w.newDepIds = []) (h2 : s.w.newDeps = [])
    (h3 : s.w.deps = s.w.depIds) (h4 : s.w.depIds.Nodup)
    (h5 : ∀ d, s.w.wid ∈ s.store d ↔ d ∈ s.w.depIds)
    (h6 : ∀ d, (s.store d).count s.w.wid ≤ 1) :
    (∀ d, d ∈ (RecM.get s).1.w.depIds ↔ d ∈ s.w.getterReads) ∧
    ((RecM.get s).1.w.deps = (RecM.get s).1.w.depIds ∧
      (RecM.get s).1.w.depIds.Nodup) ∧
    ((RecM.get s).1.w.newDepIds = [] ∧ (RecM.get s).1.w.newDeps = []) ∧
    (∀ d, s.w.wid ∈ (RecM.get s).1.store d ↔ d ∈ s.w.getterReads) ∧
    (∀ d, ((RecM.get s).1.store d).count s.w.wid ≤ 1) ∧
    (∀ d (f : Nat → List Nat → List Nat), d ∉ s.w.getterReads →
      s.w.wid ∉ (DepM.notify f ⟨(RecM.get s).1.store d, []⟩).callLog) := by
  have base := RecM.midInv_init s.w s.store h1 h2 h5 h6
  have coll := RecM.midInv_collect s.w s.w.getterReads [] s.w s.store base
  rw [List.nil_append] at coll
  obtain ⟨hEq, hNd, hNodup, hMemN, hMemS, hCnt⟩ := coll
  set w1 := (RecM.collect s.w s.store s.w.getterReads).1 with hw1
  set st1 := (RecM.collect s.w s.store s.w.getterReads).2 with hst1
  have hWid : w1.wid = s.w.wid := by rw [hEq]
  have hDeps : w1.deps = s.w.deps := by rw [hEq]
  have hw : (RecM.get s).1.w = (RecM.reconcile w1 st1).1 := rfl
  have hst : (RecM.get s).1.store = (RecM.reconcile w1 st1).2 := rfl
  have hrw : (RecM.reconcile w1 st1).1 =
      { w1 with depIds := w1.newDepIds, deps := w1.newDeps,
                newDepIds := [], newDeps := [] } := rfl
  have hrs : (RecM.reconcile w1 st1).2 =
      RecM.rmPass w1.newDepIds w1.wid w1.deps.reverse st1 := rfl
  have hNodupRev : w1.deps.reverse.Nodup := by
    rw [hDeps, h3, List.nodup_reverse]; exact h4
  have hstore : ∀ d, (RecM.get s).1.store d =
      if d ∈ w1.deps.reverse ∧ d ∉ w1.newDepIds
      then RecM.arrRemove (st1 d) w1.wid else st1 d := by
    intro d
    rw [hst, hrs, RecM.rmPass_eval _ _ _ _ _ hNodupRev]
  have hmemstore : ∀ d, s.w.wid ∈ (RecM.get s).1.store d ↔
      d ∈ s.w.getterReads := by
    intro d
    rw [hstore d]
    by_cases hr : d ∈ s.w.getterReads
    · rw [if_neg (by intro hc; exact hc.2 ((hMemN d).mpr hr))]
      rw [hMemS d]
      simp [hr]
    · by_cases hdep : d ∈ s.w.depIds
      · rw [if_pos ⟨by rw [List.mem_reverse, hDeps, h3]; exact hdep,
          fun hc => hr ((hMemN d).mp hc)⟩]
        rw [hWid]
        constructor
        · intro hc
          exact absurd hc (RecM.not_mem_arrRemove_self _ _ (hCnt d))
        · intro hc; exact absurd hc hr
      · rw [if_neg (by
          intro hc
          exact hdep (by rw [← h3, ← hDeps, ← List.mem_reverse]; exact hc.1))]
        rw [hMemS d]
        simp [hr, hdep]
  refine ⟨?_, ⟨?_, ?_⟩, ⟨?_, ?_⟩, hmemstore, ?_, ?_⟩
  · intro d
    rw [hw, hrw]
    exact hMemN d
  · rw [hw, hrw]
    exact hNd
  · rw [hw, hrw]
    exact hNodup
  · rw [hw, hrw]
  · rw [hw, hrw]
  · intro d
    rw [hstore d]
    by_cases hc : d ∈ w1.deps.reverse ∧ d ∉ w1.newDepIds
    · rw [if_pos hc, hWid]
      exact le_trans (RecM.count_arrRemove_le _ _ _) (hCnt d)
    · rw [if_neg hc]
      exact hCnt d
  · intro d f hd
    rw [RecM.notify_callLog]
    simp only [List.nil_append]
    intro hc
    exact hd ((hmemstore d).mp hc)

/-- C1. Dependency precision via double-buffered reconciliation: after
a watcher's getter evaluates (`get`), the watcher's current dependency
set equals exactly the set of Dep ids read during that evaluation, the
watcher is subscribed (at most once, since `addDep` dedupes by Dep id)
to exactly those Deps — every Dep of the previous set that was not
re-read had the watcher removed via `removeSub` — the scratch set is
cleared for the next pass, and consequently `notify()` on any Dep the
getter did not read delivers no `update()` to this watcher. -/
theorem c1_dependency_reconciliation (s : RecM.St)
    (h1 : s.w.newDepIds = []) (h2 : s.w.newDeps = [])
    (h3 : s.w.deps = s.w.depIds) (h4 : s.w.depIds.Nodup)
    (h5 : ∀ d, s.w.wid ∈ s.store d ↔ d ∈ s.w.depIds)
    (h6 : ∀ d, (s.store d).count s.w.wid ≤ 1) :
    (∀ d, d ∈ (RecM.get s).1.w.depIds ↔ d ∈ s.w.getterReads) ∧
    ((RecM.get s).1.w.deps = (RecM.get s).1.w.depIds ∧
      (RecM.get s).1.w.depIds.Nodup) ∧
    ((RecM.get s).1.w.newDepIds = [] ∧ (RecM.get s).1.w.newDeps = []) ∧
    (∀ d, s.w.wid ∈ (RecM.get s).1.store d ↔ d ∈ s.w.getterReads) ∧
    (∀ d, ((RecM.get s).1.store d).count s.w.wid ≤ 1) ∧
    (∀ d (f : Nat → List Nat → List Nat), d ∉ s.w.getterReads →
      s.w.wid ∉ (DepM.notify f ⟨(RecM.get s).1.store d, []⟩).callLog) :=
  RecM.get_reconciliation s h1 h2 h3 h4 h5 h6

/-- Witness for C1 at a concrete input: watcher 7 previously depended
on Deps 1 and 2, this pass reads Deps 2 and 3; afterwards it is
subscribed to Dep 3, no longer subscribed to Dep 1, and the scratch
set is empty. -/
theorem c1_dependency_reconciliation_witness :
    (7 ∈ (RecM.get RecM.c1s).1.store 3) ∧
    (7 ∉ (RecM.get RecM.c1s).1.store 1) ∧
    ((RecM.get RecM.c1s).1.w.newDepIds = []) := by
  have h := c1_dependency_reconciliation RecM.c1s rfl rfl rfl
    (by decide)
    (by
      intro d
      by_cases hd : d = 1 ∨ d = 2 <;>
        simp [RecM.c1s, RecM.c1w, RecM.c1store, hd])
    (by
      intro d
      by_cases hd : d = 1 ∨ d = 2 <;>
        simp [RecM.c1s, RecM.c1w, RecM.c1store, hd])
  refine ⟨?_, ?_, h.2.2.1.1⟩
  · exact (h.2.2.2.1 3).mpr (by decide)
  · intro hc
    have := (h.2.2.2.1 1).mp hc
    exact absurd this (by decide)

namespace RecM

lemma get_value_of_throw (s : St) (hthrow : s.w.getterResult = none) :
    (get s).2 = JSVal.undef := by
  show (match (collect s.w s.store s.w.getterReads).1.getterResult with
    | some v => v
    | none => JSVal.undef) = JSVal.undef
  have base : (collect s.w s.store s.w.getterReads).1.getterResult =
      s.w.getterResult := by
    have h : ∀ (reads : List Nat) (w : RW) (st : Store),
        (collect w st reads).1.getterResult = w.getterResult := by
      intro reads
      induction reads with
      | nil => intro w st; rfl
      | cons r rest ih =>
          intro w st
          show (collect (addDep w st r).1 (addDep w st r).2 rest).1.getterResult = _
          rw [ih]
          show (if r ∈ w.newDepIds then (w, st)
            else
              let w1 := { w with newDepIds := w.newDepIds ++ [r],
                                 newDeps := w.newDeps ++ [r] }
              if r ∈ w.depIds then (w1, st)
              else (w1, addSub st r w.wid)).1.getterResult = w.getterResult
          by_cases hr : r ∈ w.newDepIds
          · rw [if_pos hr]
          · rw [if_neg hr]
            by_cases hri : r ∈ w.depIds
            · rw [if_pos hri]
            · rw [if_neg hri]
    exact h s.w.getterReads s.w s.store
  rw [base, hthrow]

lemma get_w_as_collect (s : St) :
    (get s).1.w.value = (collect s.w s.store s.w.getterReads).1.value ∧
    (get s).1.w.cbLog = (collect s.w s.store s.w.getterReads).1.cbLog ∧
    (get s).1.w.deep = (collect s.w s.store s.w.getterReads).1.deep ∧
    (get s).1.w.shallow = (collect s.w s.store s.w.getterReads).1.shallow :=
  ⟨rfl, rfl, rfl, rfl⟩

lemma run_changed (s : St) (hact : s.w.active = true)
    (hcond : (!(JSVal.strictEq (get s).2 (get s).1.w.value) ||
      (((get s).2.isObject || (get s).1.w.deep) && !(get s).1.w.shallow))
      = true) :
    run s = { (get s).1 with w :=
      { (get s).1.w with
          value := (get s).2,
          cbLog := (get s).1.w.cbLog ++ [((get s).2, (get s).1.w.value)],
          queued := false, shallow := false } } := by
  show (if s.w.active = true then
      { (get s).1 with w :=
        { (if (!(JSVal.strictEq (get s).2 (get s).1.w.value) ||
              (((get s).2.isObject || (get s).1.w.deep) &&
                !(get s).1.w.shallow)) = true then
            { (get s).1.w with
                value := (get s).2,
                cbLog := (get s).1.w.cbLog ++
                  [((get s).2, (get s).1.w.value)] }
          else (get s).1.w) with queued := false, shallow := false } }
    else s) = _
  rw [if_pos hact, if_pos hcond]

lemma run_inactive (s : St) (h : s.w.active = false) : run s = s := by
  show (if s.w.active = true then _ else s) = s
  rw [if_neg (by rw [h]; simp)]

end RecM

/-- C5 counterexample: a watcher whose previous value is `1` and whose
getter throws does NOT keep its previous value — `run` stores
`undefined` and invokes the callback with `(undefined, 1)`. -/
theorem c5_throw_counterexample :
    RecM.c5s.w.value = JSVal.num 1 ∧
    (RecM.run RecM.c5s).w.value = JSVal.undef ∧
    (RecM.run RecM.c5s).w.cbLog = [(JSVal.undef, JSVal.num 1)] := by
  refine ⟨rfl, ?_, ?_⟩ <;> rfl

/-- C5 (amended). When a watcher's getter throws, the error is not
propagated (the try/catch in `get` absorbs it and the evaluation
yields `undefined`), the recording marker `Dep.target` is still
cleared, dependency reconciliation still runs (the watcher ends up
subscribed exactly to the Deps read before the throw), and the flush
continues (`run` returns normally); however the watcher does NOT keep
its previous value: `run` sees `undefined !== value`, stores
`undefined` and invokes the callback with `(undefined, oldValue)`. -/
theorem c5_evaluation_error_recovery (s : RecM.St)
    (hact : s.w.active = true)
    (hthrow : s.w.getterResult = none)
    (hold : JSVal.strictEq JSVal.undef s.w.value = false)
    (h1 : s.w.newDepIds = []) (h2 : s.w.newDeps = [])
    (h3 : s.w.deps = s.w.depIds) (h4 : s.w.depIds.Nodup)
    (h5 : ∀ d, s.w.wid ∈ s.store d ↔ d ∈ s.w.depIds)
    (h6 : ∀ d, (s.store d).count s.w.wid ≤ 1) :
    ((RecM.get s).2 = JSVal.undef) ∧
    ((RecM.run s).target = none) ∧
    (∀ d, s.w.wid ∈ (RecM.run s).store d ↔ d ∈ s.w.getterReads) ∧
    ((RecM.run s).w.newDepIds = []) ∧
    ((RecM.run s).w.value = JSVal.undef) ∧
    ((RecM.run s).w.cbLog = s.w.cbLog ++ [(JSVal.undef, s.w.value)]) := by
  have hval := RecM.get_value_of_throw s hthrow
  have base := RecM.midInv_init s.w s.store h1 h2 h5 h6
  have coll := RecM.midInv_collect s.w s.w.getterReads [] s.w s.store base
  rw [List.nil_append] at coll
  obtain ⟨hEq, -, -, -, -, -⟩ := coll
  have f3 : (RecM.get s).1.w.value = s.w.value := by
    show (RecM.collect s.w s.store s.w.getterReads).1.value = s.w.value
    rw [hEq]
  have f4 : (RecM.get s).1.w.cbLog = s.w.cbLog := by
    show (RecM.collect s.w s.store s.w.getterReads).1.cbLog = s.w.cbLog
    rw [hEq]
  have grec := RecM.get_reconciliation s h1 h2 h3 h4 h5 h6
  have hcond : (!(JSVal.strictEq (RecM.get s).2 (RecM.get s).1.w.value) ||
      (((RecM.get s).2.isObject || (RecM.get s).1.w.deep) &&
        !(RecM.get s).1.w.shallow)) = true := by
    rw [hval, f3, hold]
    simp
  have hrun := RecM.run_changed s hact hcond
  refine ⟨hval, ?_, ?_, ?_, ?_, ?_⟩
  · rw [hrun]; rfl
  · intro d
    rw [hrun]
    show s.w.wid ∈ (RecM.get s).1.store d ↔ _
    exact grec.2.2.2.1 d
  · rw [hrun]
    show (RecM.get s).1.w.newDepIds = []
    exact grec.2.2.1.1
  · rw [hrun]
    show (RecM.get s).2 = JSVal.undef
    exact hval
  · rw [hrun]
    show (RecM.get s).1.w.cbLog ++ [((RecM.get s).2, (RecM.get s).1.w.value)]
      = s.w.cbLog ++ [(JSVal.undef, s.w.value)]
    rw [f4, hval, f3]

/-- Witness for C5 at the concrete throwing watcher `c5s`. -/
theorem c5_evaluation_error_recovery_witness :
    ((RecM.get RecM.c5s).2 = JSVal.undef) ∧
    ((RecM.run RecM.c5s).w.cbLog =
      RecM.c5s.w.cbLog ++ [(JSVal.undef, RecM.c5s.w.value)]) := by
  have h := c5_evaluation_error_recovery RecM.c5s rfl rfl rfl rfl rfl rfl
    (by decide)
    (by intro d; simp [RecM.c5s])
    (by intro d; simp [RecM.c5s])
  exact ⟨h.1, h.2.2.2.2.2⟩

/-- C9. Teardown finality: after `teardown()`, the watcher has been
removed (via `removeSub`) from every Dep it held, its `active` flag is
false, any later `run()` is a no-op, and `notify()` on any
previously-held Dep delivers no `update()` to it. -/
theorem c9_teardown_finality (s : RecM.St)
    (hact : s.w.active = true)
    (hdeps : s.w.deps.Nodup)
    (hcnt : ∀ d, (s.store d).count s.w.wid ≤ 1) :
    (∀ d ∈ s.w.deps, s.w.wid ∉ (RecM.teardown s).store d) ∧
    ((RecM.teardown s).w.active = false) ∧
    (RecM.run (RecM.teardown s) = RecM.teardown s) ∧
    (∀ d ∈ s.w.deps, ∀ f : Nat → List Nat → List Nat,
      s.w.wid ∉ (DepM.notify f ⟨(RecM.teardown s).store d, []⟩).callLog) := by
  have hstore : ∀ d, (RecM.teardown s).store d =
      RecM.rmPass [] s.w.wid s.w.deps.reverse s.store d := by
    intro d
    show (if s.w.active = true then _ else s).store d = _
    rw [if_pos hact]
  have hactive : (RecM.teardown s).w.active = false := by
    show (if s.w.active = true then _ else s).w.active = false
    rw [if_pos hact]
  have hout : ∀ d ∈ s.w.deps, s.w.wid ∉ (RecM.teardown s).store d := by
    intro d hd
    rw [hstore d, RecM.rmPass_eval _ _ _ _ _ (by
      rw [List.nodup_reverse]; exact hdeps)]
    rw [if_pos ⟨List.mem_reverse.mpr hd, by simp⟩]
    exact RecM.not_mem_arrRemove_self _ _ (hcnt d)
  refine ⟨hout, hactive, RecM.run_inactive _ hactive, ?_⟩
  intro d hd f
  rw [RecM.notify_callLog]
  simp only [List.nil_append]
  exact hout d hd

/-- Witness for C9 at the concrete watcher `c1s` (subscribed to
Deps 1 and 2). -/
theorem c9_teardown_finality_witness :
    (7 ∉ (RecM.teardown RecM.c1s).store 1) ∧
    ((RecM.teardown RecM.c1s).w.active = false) ∧
    (RecM.run (RecM.teardown RecM.c1s) = RecM.teardown RecM.c1s) := by
  have h := c9_teardown_finality RecM.c1s rfl (by decide)
    (by
      intro d
      by_cases hd : d = 1 ∨ d = 2 <;>
        simp [RecM.c1s, RecM.c1w, RecM.c1store, hd])
  exact ⟨h.1 1 (by decide), h.2.1, h.2.2.1⟩

namespace RecM

lemma dependSeq_some_ok : ∀ (ds : List Nat) (w : RW) (st : Store),
    ∃ r, dependSeq (some w) st ds = Except.ok r := by
  intro ds
  induction ds with
  | nil => intro w st; exact ⟨(some w, st), rfl⟩
  | cons d rest ih =>
      intro w st
      obtain ⟨r, hr⟩ := ih (addDep w st d).1 (addDep w st d).2
      exact ⟨r, hr⟩

end RecM

/-- C10. `Dep.prototype.depend()` dereferences the global `Dep.target`
unconditionally: with no recording watcher it throws a TypeError
(modelled as `Except.error`); with a recording watcher it is total and
registers the Dep on that watcher via `addDep`; and the reactive
getter never throws from this path because it checks `Dep.target`
before calling `depend()`. -/
theorem c10_depend_requires_target :
    (∀ (st : RecM.Store) (d : Nat),
      RecM.dependExc none st d = Except.error ()) ∧
    (∀ (w : RecM.RW) (st : RecM.Store) (d : Nat),
      RecM.dependExc (some w) st d = Except.ok (RecM.addDep w st d)) ∧
    (∀ (target : Option RecM.RW) (st : RecM.Store) (pd : Nat)
      (cd : Option Nat) (es : List Nat),
      ∃ r, RecM.reactiveGetterDeps target st pd cd es = Except.ok r) := by
  refine ⟨fun st d => rfl, fun w st d => rfl, ?_⟩
  intro target st pd cd es
  cases target with
  | none => exact ⟨(none, st), rfl⟩
  | some w => exact RecM.dependSeq_some_ok (pd :: (cd.toList ++ es)) w st

/-- C3 counterexample: the setter has no NaN test — assigning NaN over
a current NaN value does NOT short-circuit: it re-observes the value
and fires `notify()`. -/
theorem c3_nan_counterexample :
    (ReactM.reactiveSetter ⟨false, JSVal.nan, JSVal.undef⟩ JSVal.nan).notifies
      = 1 ∧
    (ReactM.reactiveSetter ⟨false, JSVal.nan, JSVal.undef⟩ JSVal.nan).observed
      = some JSVal.nan := by
  exact ⟨rfl, rfl⟩

/-- C3 (amended). The reactive setter short-circuits — no store, no
re-observation, no `notify()` — exactly when `newVal === value`
(strict equality, under which `NaN === NaN` is false, so a NaN
assignment over NaN takes the update path); otherwise it stores
through the captured setter or the closure variable, re-observes the
new value, and fires `notify()` exactly once. -/
theorem c3_setter_equality_short_circuit (s : ReactM.Slot) (v : JSVal) :
    (JSVal.strictEq v s.current = true →
      ReactM.reactiveSetter s v = ⟨s, none, 0⟩) ∧
    (JSVal.strictEq v s.current = false →
      (ReactM.reactiveSetter s v).slot =
        (if s.hasAcc then { s with extVal := v }
         else { s with closureVal := v }) ∧
      (ReactM.reactiveSetter s v).slot.current = v ∧
      (ReactM.reactiveSetter s v).observed = some v ∧
      (ReactM.reactiveSetter s v).notifies = 1) := by
  constructor
  · intro h
    show (if JSVal.strictEq v s.current = true then _ else _) = _
    rw [if_pos h]
  · intro h
    have hs : ReactM.reactiveSetter s v =
        ⟨if s.hasAcc then { s with extVal := v }
         else { s with closureVal := v }, some v, 1⟩ := by
      show (if JSVal.strictEq v s.current = true then _ else _) = _
      rw [if_neg (by rw [h]; simp)]
    refine ⟨by rw [hs], ?_, by rw [hs], by rw [hs]⟩
    rw [hs]
    by_cases ha : s.hasAcc = true
    · rw [if_pos ha]
      simp [ReactM.Slot.current, ha]
    · rw [if_neg ha]
      rw [Bool.not_eq_true] at ha
      simp [ReactM.Slot.current, ha]

/-- Witness for C3 (amended): equal assignment is a silent no-op,
different assignment notifies once. -/
theorem c3_setter_equality_short_circuit_witness :
    ReactM.reactiveSetter ⟨false, JSVal.num 1, JSVal.undef⟩ (JSVal.num 1) =
      ⟨⟨false, JSVal.num 1, JSVal.undef⟩, none, 0⟩ ∧
    (ReactM.reactiveSetter ⟨false, JSVal.num 1, JSVal.undef⟩
      (JSVal.num 2)).notifies = 1 := by
  have h1 := (c3_setter_equality_short_circuit
    ⟨false, JSVal.num 1, JSVal.undef⟩ (JSVal.num 1)).1 (by decide)
  have h2 := (c3_setter_equality_short_circuit
    ⟨false, JSVal.num 1, JSVal.undef⟩ (JSVal.num 2)).2 (by decide)
  exact ⟨h1, h2.2.2.2⟩

/-- C6. Each intercepted array method returns exactly the native
operation's result and its mutation of the array, hands exactly the
newly inserted elements to `observeArray` (all arguments for push and
unshift, the arguments after the first two for splice, none
otherwise), and calls `notify()` on the array's Observer Dep exactly
once. -/
theorem c6_array_interceptor (m : ArrM.Method) (l args : List Int) :
    (ArrM.mutator m l args).arr = (ArrM.native m l args).1 ∧
    (ArrM.mutator m l args).result = (ArrM.native m l args).2 ∧
    (ArrM.mutator m l args).observed = ArrM.insertedSpec m args ∧
    (ArrM.mutator m l args).notifies = 1 := by
  cases m <;> exact ⟨rfl, rfl, rfl, rfl⟩

/-- C7. `Dep.prototype.notify` iterates a snapshot copy of the
subscriber list: the set of `update()` calls delivered is exactly the
subscriber list at the moment `notify()` began, regardless of how the
updates mutate the live list — a watcher subscribed once receives
exactly one call. -/
theorem c7_notify_snapshot (f : Nat → List Nat → List Nat)
    (s : DepM.DepSt) (w : Nat) (h : s.subs.count w = 1) :
    (DepM.notify f s).callLog = s.callLog ++ s.subs ∧
    (DepM.notify f s).callLog.count w = s.callLog.count w + 1 := by
  refine ⟨RecM.notify_callLog f s, ?_⟩
  rw [RecM.notify_callLog, List.count_append, h]

/-- Witness for C7: watcher 4 removes itself from the live list during
its update; both subscribers still receive exactly one call. -/
theorem c7_notify_snapshot_witness :
    (DepM.notify (fun x subs => subs.erase x) ⟨[4, 5], []⟩).callLog
      = [] ++ [4, 5] ∧
    (DepM.notify (fun x subs => subs.erase x) ⟨[4, 5], []⟩).callLog.count 4
      = 1 :=
  c7_notify_snapshot (fun x subs => subs.erase x) ⟨[4, 5], []⟩ 4 (by decide)

/-- C8. `observe` returns undefined for primitives, null, and (when no
Observer is attached yet) non-extensible values and values carrying
`_isVue`, leaving the value unchanged; for an eligible plain object or
array it is idempotent: the first call attaches an Observer via
`__ob__` and walks the value, every later call returns that same
Observer without re-walking. -/
theorem c8_observe_contract :
    (∀ (sc : Bool) (id : Nat) (vm : Option Nat),
      ObsM.observe sc id ObsM.JV.prim vm = ⟨ObsM.JV.prim, none, false, none⟩) ∧
    (∀ (sc : Bool) (id : Nat) (vm : Option Nat),
      ObsM.observe sc id ObsM.JV.null vm = ⟨ObsM.JV.null, none, false, none⟩) ∧
    (∀ (sc : Bool) (id : Nat) (vm : Option Nat) (o : ObsM.JObj),
      o.ob = none → (o.extensible = false ∨ o.isVue = true) →
      ObsM.observe sc id (ObsM.JV.obj o) vm =
        ⟨ObsM.JV.obj o, none, false, none⟩) ∧
    (∀ (sc2 : Bool) (id id2 : Nat) (vm vm2 : Option Nat) (o : ObsM.JObj),
      o.ob = none → (o.isArr = true ∨ o.isPlain = true) →
      o.extensible = true → o.isVue = false →
      (ObsM.observe true id (ObsM.JV.obj o) vm).ob = some id ∧
      (ObsM.observe true id (ObsM.JV.obj o) vm).constructed = true ∧
      (ObsM.observe sc2 id2
        (ObsM.observe true id (ObsM.JV.obj o) vm).value vm2).ob = some id ∧
      (ObsM.observe sc2 id2
        (ObsM.observe true id (ObsM.JV.obj o) vm).value vm2).constructed
        = false ∧
      (ObsM.observe sc2 id2
        (ObsM.observe true id (ObsM.JV.obj o) vm).value vm2).value =
        (ObsM.observe true id (ObsM.JV.obj o) vm).value) := by
  refine ⟨fun sc id vm => rfl, fun sc id vm => rfl, ?_, ?_⟩
  · intro sc id vm o hob h2
    rcases h2 with hext | hvue
    · simp [ObsM.observe, hob, hext]
    · simp [ObsM.observe, hob, hvue]
  · intro sc2 id id2 vm vm2 o hob h2 hext hvue
    have hfirst : ObsM.observe true id (ObsM.JV.obj o) vm =
        ⟨ObsM.JV.obj { o with ob := some id }, some id, true,
          if vm.isSome then vm else none⟩ := by
      rcases h2 with harr | hplain
      · simp [ObsM.observe, hob, hext, hvue, harr]
      · simp [ObsM.observe, hob, hext, hvue, hplain]
    rw [hfirst]
    exact ⟨rfl, rfl, rfl, rfl, rfl⟩

/-- Witness for C8: a non-extensible plain object is left untouched;
an eligible object gets Observer 3 on the first call and the second
call returns the same Observer without constructing. -/
theorem c8_observe_contract_witness :
    ObsM.observe true 3 (ObsM.JV.obj ⟨false, true, false, false, none⟩) none
      = ⟨ObsM.JV.obj ⟨false, true, false, false, none⟩, none, false, none⟩ ∧
    (ObsM.observe false 9
      (ObsM.observe true 3 (ObsM.JV.obj ⟨false, true, true, false, none⟩)
        none).value none).ob = some 3 ∧
    (ObsM.observe false 9
      (ObsM.observe true 3 (ObsM.JV.obj ⟨false, true, true, false, none⟩)
        none).value none).constructed = false := by
  have h3 := c8_observe_contract.2.2.1 true 3 none
    ⟨false, true, false, false, none⟩ rfl (Or.inl rfl)
  have h4 := c8_observe_contract.2.2.2 false 3 9 none none
    ⟨false, true, true, false, none⟩ rfl (Or.inr rfl) rfl rfl
  exact ⟨h3, h4.2.2.1, h4.2.2.2.1⟩
namespace SchedM

lemma c4_start_step (fuel : Nat) :
    runQ (fuel + 1) false 0 c4start = runQ fuel false 1 (c4state 1) := rfl

lemma c4_iter (fuel k : Nat) :
    runQ (fuel + 1) false k (c4state k) = runQ fuel false (k + 1) (c4state (k + 1)) := by
  have hlt : k < (List.replicate (k + 1) (0 : Nat)).length := by simp
  have hne1 : (((k : Int) + 1) != (k : Int)) = true := by
    simp [bne]
  have hne2 : ¬ ((k : Int) + 1 + 1 = (k : Int) + 1) := by omega
  simp [runQ, qsel, c4state, runW, getW, setW, setCell, doWrite, notifyCell,
    updateW, pushWatcher, hlt, hne1, hne2, List.replicate_succ',
    List.range_succ, List.getD]

end SchedM

namespace SchedM

lemma c4_runQ : ∀ (fuel k : Nat),
    (runQ fuel false k (c4state k)).fuelOut = true ∧
    (runQ fuel false k (c4state k)).queue ≠ [] ∧
    (runQ fuel false k (c4state k)).userQueue = [] ∧
    (runQ fuel false k (c4state k)).runLog.length = k + fuel ∧
    (runQ fuel false k (c4state k)).aborted = false := by
  intro fuel
  induction fuel with
  | zero =>
      intro k
      refine ⟨rfl, ?_, rfl, ?_, rfl⟩
      · show List.replicate (k + 1) 0 ≠ []
        simp
      · show (List.replicate k 0).length = k + 0
        simp
  | succ f ih =>
      intro k
      rw [c4_iter f k]
      obtain ⟨a, b, c, d, e⟩ := ih (k + 1)
      refine ⟨a, b, c, ?_, e⟩
      rw [d]
      omega

lemma setW_fuelOut (s : Core) (i : Nat) (w : SW) :
    (setW s i w).fuelOut = s.fuelOut := rfl

lemma setW_aborted (s : Core) (i : Nat) (w : SW) :
    (setW s i w).aborted = s.aborted := rfl

lemma setW_runLog (s : Core) (i : Nat) (w : SW) :
    (setW s i w).runLog = s.runLog := rfl

lemma foldl_pres3 {α : Type} (g : Core → α → Core)
    (hg : ∀ s a, (g s a).fuelOut = s.fuelOut ∧ (g s a).aborted = s.aborted ∧
      (g s a).runLog = s.runLog) :
    ∀ (l : List α) (s : Core),
      (l.foldl g s).fuelOut = s.fuelOut ∧ (l.foldl g s).aborted = s.aborted ∧
      (l.foldl g s).runLog = s.runLog := by
  intro l
  induction l with
  | nil => intro s; exact ⟨rfl, rfl, rfl⟩
  | cons a rest ih =>
      intro s
      have h1 := hg s a
      have h2 := ih (g s a)
      rw [List.foldl_cons]
      exact ⟨h2.1.trans h1.1, h2.2.1.trans h1.2.1, h2.2.2.trans h1.2.2⟩

lemma pushWatcher_pres (i : Nat) (s : Core) :
    (pushWatcher i s).fuelOut = s.fuelOut ∧ (pushWatcher i s).aborted = s.aborted ∧
    (pushWatcher i s).runLog = s.runLog := by
  simp only [pushWatcher]
  split_ifs <;> exact ⟨rfl, rfl, rfl⟩

lemma updateW_pres (i : Nat) (sh : Bool) (s : Core) :
    (updateW i sh s).fuelOut = s.fuelOut ∧ (updateW i sh s).aborted = s.aborted ∧
    (updateW i sh s).runLog = s.runLog := by
  simp only [updateW]
  split_ifs <;>
    first
      | exact ⟨rfl, rfl, rfl⟩
      | exact ⟨by rw [(pushWatcher_pres i _).1]; rfl,
               by rw [(pushWatcher_pres i _).2.1]; rfl,
               by rw [(pushWatcher_pres i _).2.2]; rfl⟩

lemma notifyCell_pres (c : Nat) (s : Core) :
    (notifyCell c s).fuelOut = s.fuelOut ∧ (notifyCell c s).aborted = s.aborted ∧
    (notifyCell c s).runLog = s.runLog :=
  foldl_pres3 _ (fun s a => updateW_pres a false s) _ s

lemma setCell_pres (c : Nat) (v : Int) (s : Core) :
    (setCell c v s).fuelOut = s.fuelOut ∧ (setCell c v s).aborted = s.aborted ∧
    (setCell c v s).runLog = s.runLog := by
  simp only [setCell]
  split_ifs with h
  · exact ⟨rfl, rfl, rfl⟩
  · exact notifyCell_pres c _

lemma doWrite_pres (s : Core) (wr : CbWrite) :
    (doWrite s wr).fuelOut = s.fuelOut ∧ (doWrite s wr).aborted = s.aborted ∧
    (doWrite s wr).runLog = s.runLog := by
  cases wr with
  | setTo c v => exact setCell_pres c v s
  | incr c => exact setCell_pres c _ s

lemma runW_pres (i : Nat) (s : Core) :
    (runW i s).fuelOut = s.fuelOut ∧ (runW i s).aborted = s.aborted ∧
    (runW i s).runLog = s.runLog := by
  simp only [runW]
  split_ifs <;>
    first
      | exact ⟨rfl, rfl, rfl⟩
      | exact ⟨by rw [setW_fuelOut, (foldl_pres3 doWrite doWrite_pres _ _).1]; rfl,
               by rw [setW_aborted, (foldl_pres3 doWrite doWrite_pres _ _).2.1]; rfl,
               by rw [setW_runLog, (foldl_pres3 doWrite doWrite_pres _ _).2.2]; rfl⟩

end SchedM


namespace SchedM

lemma runQ_succ (f : Nat) (u : Bool) (i : Nat) (s : Core) :
    runQ (f + 1) u i s =
      if h : i < (qsel u s).length then
        runQ f u (i + 1)
          (runW ((qsel u s).get ⟨i, h⟩)
            { s with hasSet := s.hasSet.erase ((qsel u s).get ⟨i, h⟩),
                     runLog := s.runLog ++ [(qsel u s).get ⟨i, h⟩] })
      else if u = true then { s with userQueue := [] }
      else { s with queue := [] } := rfl

lemma runQ_pres_mono : ∀ (fuel : Nat) (u : Bool) (i : Nat) (s : Core),
    (s.fuelOut = true → (runQ fuel u i s).fuelOut = true) ∧
    (runQ fuel u i s).aborted = s.aborted ∧
    s.runLog.length ≤ (runQ fuel u i s).runLog.length := by
  intro fuel
  induction fuel with
  | zero => intro u i s; exact ⟨fun _ => rfl, rfl, le_refl _⟩
  | succ f ih =>
      intro u i s
      rw [runQ_succ]
      by_cases hd : i < (qsel u s).length
      · rw [dif_pos hd]
        refine ⟨?_, ?_, ?_⟩
        · intro hs
          refine (ih u (i + 1) _).1 ?_
          rw [(runW_pres _ _).1]
          exact hs
        · rw [(ih u (i + 1) _).2.1, (runW_pres _ _).2.1]
        · refine le_trans ?_ (ih u (i + 1) _).2.2
          rw [(runW_pres _ _).2.2]
          simp
      · rw [dif_neg hd]
        by_cases hu : u = true
        · rw [if_pos hu]
          exact ⟨fun hs => hs, rfl, le_refl _⟩
        · rw [if_neg hu]
          exact ⟨fun hs => hs, rfl, le_refl _⟩

lemma flush_pres_mono : ∀ (fuel : Nat) (s : Core),
    (s.fuelOut = true → (flush fuel s).fuelOut = true) ∧
    (flush fuel s).aborted = s.aborted ∧
    s.runLog.length ≤ (flush fuel s).runLog.length := by
  intro fuel
  induction fuel with
  | zero => intro s; exact ⟨fun _ => rfl, rfl, le_refl _⟩
  | succ f ih =>
      intro s
      simp only [flush]
      split
      · refine ⟨?_, ?_, ?_⟩
        · intro hs
          exact (ih _).1 ((runQ_pres_mono f true 0 _).1
            ((runQ_pres_mono f false 0 s).1 hs))
        · rw [(ih _).2.1, (runQ_pres_mono f true 0 _).2.1,
              (runQ_pres_mono f false 0 s).2.1]
        · exact le_trans (runQ_pres_mono f false 0 s).2.2
            (le_trans (runQ_pres_mono f true 0 _).2.2 (ih _).2.2)
      · refine ⟨?_, ?_, ?_⟩
        · intro hs
          exact (runQ_pres_mono f true 0 _).1
            ((runQ_pres_mono f false 0 s).1 hs)
        · rw [show ∀ x : Core, (resetBatcher x).aborted = x.aborted
            from fun x => rfl]
          rw [(runQ_pres_mono f true 0 _).2.1,
              (runQ_pres_mono f false 0 s).2.1]
        · exact le_trans (runQ_pres_mono f false 0 s).2.2
            (runQ_pres_mono f true 0 _).2.2

lemma c4_flush_fuelOut : ∀ fuel, (flush fuel c4start).fuelOut = true := by
  intro fuel
  cases fuel with
  | zero => rfl
  | succ f =>
      have hs1 : (runQ f false 0 c4start).fuelOut = true := by
        cases f with
        | zero => rfl
        | succ g =>
            rw [c4_start_step g]
            exact (c4_runQ g 1).1
      have hs2 : (runQ f true 0 (runQ f false 0 c4start)).fuelOut = true :=
        (runQ_pres_mono f true 0 _).1 hs1
      simp only [flush]
      split
      · exact (flush_pres_mono f _).1 hs2
      · exact hs2

end SchedM


namespace SchedM

lemma flush_succ (f : Nat) (s : Core) :
    flush (f + 1) s =
      if (runQ f true 0 (runQ f false 0 s)).queue ≠ [] then
        flush f (runQ f true 0 (runQ f false 0 s))
      else resetBatcher (runQ f true 0 (runQ f false 0 s)) := rfl

lemma c4_flush_runLog (f : Nat) (hf : 109 <= f) :
    maxUpdateCount < (flush (f + 1) c4start).runLog.length := by
  obtain ⟨g, rfl⟩ : ∃ g, f = g + 109 := ⟨f - 109, by omega⟩
  have h1 : (runQ (g + 109) false 0 c4start).runLog.length = g + 109 := by
    rw [show g + 109 = (g + 108) + 1 by omega, c4_start_step (g + 108)]
    have := (c4_runQ (g + 108) 1).2.2.2.1
    omega
  have hm := (runQ_pres_mono (g + 109) true 0
    (runQ (g + 109) false 0 c4start)).2.2
  rw [flush_succ]
  split
  · have hp := (flush_pres_mono (g + 109)
      (runQ (g + 109) true 0 (runQ (g + 109) false 0 c4start))).2.2
    simp only [maxUpdateCount]
    omega
  · have hq : (resetBatcher (runQ (g + 109) true 0
        (runQ (g + 109) false 0 c4start))).runLog =
        (runQ (g + 109) true 0 (runQ (g + 109) false 0 c4start)).runLog := rfl
    rw [hq]
    simp only [maxUpdateCount]
    omega

lemma c2_setCell (v0 cur v : Int) (q : Bool) :
    setCell 0 v (c2state v0 cur q) =
      if v = cur then c2state v0 cur q else c2state v0 v true := by
  cases q with
  | false =>
      by_cases hv : v = cur
      · rw [if_pos hv]
        simp [setCell, c2state, mkW2, hv]
      · rw [if_neg hv]
        simp [setCell, c2state, mkW2, notifyCell, updateW, getW, setW,
          pushWatcher, hv]
  | true =>
      by_cases hv : v = cur
      · rw [if_pos hv]
        simp [setCell, c2state, mkW2, hv]
      · rw [if_neg hv]
        simp [setCell, c2state, mkW2, notifyCell, updateW, getW, setW,
          pushWatcher, hv]

lemma c2_triggers : ∀ (vs : List Int) (v0 cur : Int) (q : Bool),
    (q = false → cur = v0) →
    ∃ q2, applyTriggers vs (c2state v0 cur q)
        = c2state v0 (vs.getLastD cur) q2 ∧
      (q2 = false → vs.getLastD cur = v0) := by
  intro vs
  induction vs with
  | nil =>
      intro v0 cur q hq
      exact ⟨q, rfl, hq⟩
  | cons v rest ih =>
      intro v0 cur q hq
      have happ : applyTriggers (v :: rest) (c2state v0 cur q)
          = applyTriggers rest (setCell 0 v (c2state v0 cur q)) := rfl
      rw [happ, c2_setCell, List.getLastD_cons]
      by_cases hv : v = cur
      · rw [if_pos hv]
        obtain ⟨q2, h1, h2⟩ := ih v0 cur q hq
        rw [hv]
        exact ⟨q2, h1, h2⟩
      · rw [if_neg hv]
        obtain ⟨q2, h1, h2⟩ := ih v0 v true (fun h => Bool.noConfusion h)
        exact ⟨q2, h1, h2⟩

lemma c2_flush (v0 last : Int) (h : last ≠ v0) (g : Nat) :
    flush (g + 1 + 1 + 1) (c2state v0 last true) =
      { c2state last last false with
          cbLog := [(0, last, v0)], runLog := [0] } := by
  have hb : ((last == v0) : Bool) = false := by
    rw [beq_eq_false_iff_ne]
    exact h
  have e1 : runQ (g + 1 + 1) false 0 (c2state v0 last true) =
      { c2state last last false with
          waiting := true, cbLog := [(0, last, v0)], runLog := [0] } := by
    simp [runQ, qsel, runW, getW, setW, updateW, pushWatcher, notifyCell,
      setCell, c2state, mkW2, hb, h]
  have e2 : runQ (g + 1 + 1) true 0
      ({ c2state last last false with
          waiting := true, cbLog := [(0, last, v0)], runLog := [0] }) =
      { c2state last last false with
          waiting := true, cbLog := [(0, last, v0)], runLog := [0] } := by
    simp [runQ, qsel, c2state]
  rw [flush_succ, e1, e2]
  simp [resetBatcher, c2state]

end SchedM


/-- C2. Scheduler batching and deduplication: triggering the single
non-lazy non-sync watcher through any non-empty sequence of reactive
assignments within one tick enqueues it exactly once (`pushWatcher`
dedupes via the `has` map); the flush then runs it once, invoking the
callback exactly once with the value computed after the last trigger;
and on the two-watcher scenario the flush runs the primary queue in
FIFO order before the user queue and re-flushes recursively while the
primary queue is non-empty. -/
theorem c2_scheduler_batching (v0 : Int) (vs : List Int)
    (hne : vs ≠ []) (hlast : vs.getLastD v0 ≠ v0) :
    (SchedM.applyTriggers vs (SchedM.sysC2 v0)).queue = [0] ∧
    (SchedM.applyTriggers vs (SchedM.sysC2 v0)).queue.count 0 = 1 ∧
    (SchedM.flush 4 (SchedM.applyTriggers vs (SchedM.sysC2 v0))).cbLog
      = [(0, vs.getLastD v0, v0)] ∧
    (SchedM.flush 4 (SchedM.applyTriggers vs (SchedM.sysC2 v0))).runLog
      = [0] ∧
    (SchedM.flush 10 (SchedM.setCell 0 1 SchedM.sysAB)).runLog
      = [0, 1, 0] ∧
    (SchedM.flush 10 (SchedM.setCell 0 1 SchedM.sysAB)).cbLog
      = [(0, 1, 0), (1, 1, 0)] := by
  obtain ⟨q2, h1, h2⟩ := SchedM.c2_triggers vs v0 v0 false (fun _ => rfl)
  have hq2 : q2 = true := by
    cases q2 with
    | true => rfl
    | false => exact absurd (h2 rfl) hlast
  rw [hq2] at h1
  have hfl := SchedM.c2_flush v0 (vs.getLastD v0) hlast 1
  refine ⟨?_, ?_, ?_, ?_, ?_, ?_⟩
  · show (SchedM.applyTriggers vs (SchedM.c2state v0 v0 false)).queue = [0]
    rw [h1]
    rfl
  · show (SchedM.applyTriggers vs
      (SchedM.c2state v0 v0 false)).queue.count 0 = 1
    rw [h1]
    rfl
  · show (SchedM.flush 4 (SchedM.applyTriggers vs
      (SchedM.c2state v0 v0 false))).cbLog = _
    rw [h1, show (4 : Nat) = 1 + 1 + 1 + 1 from rfl, hfl]
  · show (SchedM.flush 4 (SchedM.applyTriggers vs
      (SchedM.c2state v0 v0 false))).runLog = _
    rw [h1, show (4 : Nat) = 1 + 1 + 1 + 1 from rfl, hfl]
  · decide
  · decide

/-- Witness for C2: a single trigger 0 → 1; one queue entry, one
callback with the final value. -/
theorem c2_scheduler_batching_witness :
    (SchedM.applyTriggers [1] (SchedM.sysC2 0)).queue = [0] ∧
    (SchedM.flush 4 (SchedM.applyTriggers [1] (SchedM.sysC2 0))).cbLog
      = [(0, 1, 0)] := by
  have h := c2_scheduler_batching 0 [1] (by decide) (by decide)
  exact ⟨h.1, h.2.2.1⟩

/-- C4 counterexample: in this production build the cycle-guard block
is `if (false)` dead code, so for a watcher that re-dirties itself on
every run the flush does not abort: at a fuel budget of 110 the flush
is still running (fuel exhausted), no diagnostic abort happened, and
the watcher has already run more than `config._maxUpdateCount`
times. -/
theorem c4_no_abort_counterexample :
    (SchedM.flush 110 SchedM.c4start).fuelOut = true ∧
    (SchedM.flush 110 SchedM.c4start).aborted = false ∧
    SchedM.maxUpdateCount < (SchedM.flush 110 SchedM.c4start).runLog.length := by
  refine ⟨SchedM.c4_flush_fuelOut 110, ?_, ?_⟩
  · rw [(SchedM.flush_pres_mono 110 SchedM.c4start).2.1]
    rfl
  · exact SchedM.c4_flush_runLog 109 (by omega)

set_option maxRecDepth 40000 in
/-- C4 (amended). As shipped, the runaway guard is compiled out
(`if (false)`), so a watcher whose run unconditionally re-dirties
itself makes `flushBatcherQueue` loop forever — every fuel budget is
exhausted.  With the diagnostic branch enabled as written in the
source text, the same flush aborts with a diagnostic after the
watcher's per-flush run count exceeds `config._maxUpdateCount` (100):
it runs exactly 101 times and the flush terminates. -/
theorem c4_runaway_guard :
    (∀ fuel, (SchedM.flush fuel SchedM.c4start).fuelOut = true) ∧
    ((SchedM.flushDev 120 SchedM.c4start).aborted = true ∧
     (SchedM.flushDev 120 SchedM.c4start).fuelOut = false ∧
     (SchedM.flushDev 120 SchedM.c4start).runLog.length
       = SchedM.maxUpdateCount + 1) := by
  refine ⟨SchedM.c4_flush_fuelOut, ?_⟩
  decide
